import Mathlib

/-!
Verification of the `kn-plugin-operator` install command.

Strings are modelled as lists of characters (`Str`); Go's standard string
operations (`strings.ToLower`, `strings.HasPrefix`, `strings.EqualFold`,
`fmt.Sprintf` with `%s`) become the corresponding list operations.  The
`golang.org/x/mod/semver` library, an external dependency of the repository,
is modelled after its published parsing and comparison algorithm.
-/

/-- Strings as lists of characters (Go strings restricted to their
character content; all inputs of interest are ASCII). -/
abbrev Str := List Char

/-- Embed a Lean string literal as a `Str`. -/
def gostr (s : String) : Str := s.data

/-- Model of Go byte/char digit test: the character is one of 0..9. -/
def isDigitGo (c : Char) : Bool := decide (48 ≤ c.toNat ∧ c.toNat ≤ 57)

/-- Model of the semver library's ident-character test:
A-Z, a-z, 0-9 or a hyphen. -/
def isIdentChar (c : Char) : Bool :=
  decide ((65 ≤ c.toNat ∧ c.toNat ≤ 90) ∨ (97 ≤ c.toNat ∧ c.toNat ≤ 122) ∨
    (48 ≤ c.toNat ∧ c.toNat ≤ 57) ∨ c.toNat = 45)

/-- Model of `unicode.ToLower` restricted to ASCII, as used by
`strings.ToLower` on the version strings of this repository: shift an
upper-case letter down into the lower-case range. -/
def charToLower (c : Char) : Char :=
  if 65 ≤ c.toNat ∧ c.toNat ≤ 90 then Char.ofNat (c.toNat + 32) else c

/-- Model of `strings.ToLower` (ASCII fragment). -/
def goToLower (s : Str) : Str := s.map charToLower

/-- Model of `strings.HasPrefix pre s` (arguments: pattern, then string). -/
def strHasPre : Str → Str → Bool
  | [], _ => true
  | _ :: _, [] => false
  | p :: ps, c :: cs => p = c ∧ strHasPre ps cs

/-- Model of `strings.EqualFold` (ASCII fragment): equal up to case. -/
def goEqualFold (a b : Str) : Bool := goToLower a = goToLower b

/-- Numeric value denoted by a string of decimal digit characters. -/
def digitsToNat (s : Str) : Nat := s.foldl (fun a c => 10 * a + (c.toNat - 48)) 0

/-- Model of x/mod semver `parseInt`: split a leading run of decimal digits,
rejecting an empty run and (multi-digit) leading zeros. -/
def parseIntGo : Str → Option (Str × Str)
  | [] => none
  | c :: t =>
    if isDigitGo c then
      let d := (c :: t).takeWhile isDigitGo
      let r := (c :: t).dropWhile isDigitGo
      if c = '0' ∧ d.length ≠ 1 then none else some (d, r)
    else none

/-- Character that ends neither a prerelease chunk nor the prerelease part. -/
def notDotPlus (c : Char) : Bool := ¬(c = '.' ∨ c = '+')

/-- Character that does not end a build-metadata chunk. -/
def notDot (c : Char) : Bool := ¬(c = '.')

/-- Whether a string consists solely of decimal digits (semver `isNum`). -/
def isNumStr (s : Str) : Bool := s.all isDigitGo

/-- Semver `isBadNum`: an all-digit identifier longer than one character
starting with 0. -/
def isBadNum (s : Str) : Bool := isNumStr s ∧ 1 < s.length ∧ s.head? = some '0'

/-- Model of the x/mod semver prerelease scanner (the part after the
leading hyphen): '.'-separated chunks of ident characters, no empty chunk,
no numeric chunk with leading zeros; stops at '+'.  Returns the scanned body
and the rest (empty or starting with '+').  The fuel argument is always
called with more fuel than the input length, so it never runs out. -/
def parsePreF : Nat → Str → Option (Str × Str)
  | 0, _ => none
  | fuel + 1, v =>
    let chunk := v.takeWhile notDotPlus
    let rest := v.dropWhile notDotPlus
    if chunk = [] then none
    else if ¬ chunk.all isIdentChar then none
    else if isBadNum chunk then none
    else if rest.head? = some '.' then
      match parsePreF fuel rest.tail with
      | none => none
      | some (body, r) => some (chunk ++ '.' :: body, r)
    else some (chunk, rest)

/-- Model of the x/mod semver build-metadata scanner (after the leading '+'):
'.'-separated non-empty chunks of ident characters, to the end of the
string (leading zeros allowed). -/
def parseBuildF : Nat → Str → Option Str
  | 0, _ => none
  | fuel + 1, v =>
    let chunk := v.takeWhile notDot
    let rest := v.dropWhile notDot
    if chunk = [] then none
    else if ¬ chunk.all isIdentChar then none
    else if rest.head? = some '.' then
      match parseBuildF fuel rest.tail with
      | none => none
      | some body => some (chunk ++ '.' :: body)
    else some chunk

/-- Result of x/mod semver `parse`: the textual components of a valid
version (minor and patch default to "0" for short forms; prerelease keeps
its leading '-', build its leading '+'). -/
structure SemverParsed where
  major : Str
  minor : Str
  patch : Str
  prerelease : Str
  build : Str
deriving DecidableEq

/-- Tail phase of semver `parse`: optional prerelease part then optional
build part, after which nothing may remain. -/
def parseAfterPre (maj mnr ptc pre r4 : Str) : Option SemverParsed :=
  if r4 = [] then some ⟨maj, mnr, ptc, pre, []⟩
  else if r4.head? = some '+' then
    match parseBuildF (r4.tail.length + 1) r4.tail with
    | none => none
    | some body => some ⟨maj, mnr, ptc, pre, '+' :: body⟩
  else none

/-- Phase of semver `parse` following the patch number. -/
def parseExtra (maj mnr ptc r3 : Str) : Option SemverParsed :=
  if r3.head? = some '-' then
    match parsePreF (r3.tail.length + 1) r3.tail with
    | none => none
    | some (body, r4) => parseAfterPre maj mnr ptc ('-' :: body) r4
  else parseAfterPre maj mnr ptc [] r3

/-- Body of semver `parse` after the mandatory leading 'v': major, then
optionally '.' minor, then optionally '.' patch, prerelease, build. -/
def parseTail (t : Str) : Option SemverParsed :=
  match parseIntGo t with
  | none => none
  | some (maj, r1) =>
    if r1 = [] then some ⟨maj, ['0'], ['0'], [], []⟩
    else if r1.head? = some '.' then
      match parseIntGo r1.tail with
      | none => none
      | some (mnr, r2) =>
        if r2 = [] then some ⟨maj, mnr, ['0'], [], []⟩
        else if r2.head? = some '.' then
          match parseIntGo r2.tail with
          | none => none
          | some (ptc, r3) => parseExtra maj mnr ptc r3
        else none
    else none

/-- Model of x/mod `semver.parse`: requires a leading 'v'. -/
def semverParse (v : Str) : Option SemverParsed :=
  if v.head? = some 'v' then parseTail v.tail else none

/-- Model of x/mod `semver.IsValid`. -/
def semverIsValid (v : Str) : Bool := (semverParse v).isSome

/-- Model of x/mod `semver.Major`: "v" followed by the major digits, or
empty for an invalid version. -/
def semverMajor (v : Str) : Str :=
  match semverParse v with
  | none => []
  | some p => 'v' :: p.major

/-- Numeric major version of a valid semver string (0 for invalid ones);
used to phrase "the major version compares greater than 0". -/
def semverMajorNat (v : Str) : Nat :=
  match semverParse v with
  | none => 0
  | some p => digitsToNat p.major

/-- Go string `<` (bytewise lexicographic; ASCII chars compare by code). -/
def lexLt : Str → Str → Bool
  | [], [] => false
  | [], _ :: _ => true
  | _ :: _, [] => false
  | a :: as, b :: bs => if a < b then true else if b < a then false else lexLt as bs

/-- Model of semver `compareInt`: compare digit strings without leading
zeros, first by length, then lexicographically. -/
def compareIntGo (x y : Str) : Int :=
  if x = y then 0
  else if x.length < y.length then -1
  else if y.length < x.length then 1
  else if lexLt x y then -1 else 1

/-- Semver `nextIdent`: split at the next '.', keeping it in the rest. -/
def nextIdentGo (x : Str) : Str × Str := (x.takeWhile notDot, x.dropWhile notDot)

/-- Loop of semver `comparePrerelease` (fuel exceeds the length of the
first argument, so it never runs out). -/
def compPreLoop : Nat → Str → Str → Int
  | 0, _, _ => 0
  | fuel + 1, x, y =>
    if x = [] then -1
    else if y = [] then 1
    else
      let dx := (nextIdentGo x.tail).1
      let x2 := (nextIdentGo x.tail).2
      let dy := (nextIdentGo y.tail).1
      let y2 := (nextIdentGo y.tail).2
      if dx = dy then compPreLoop fuel x2 y2
      else if isNumStr dx ≠ isNumStr dy then (if isNumStr dx then -1 else 1)
      else if isNumStr dx ∧ dx.length < dy.length then -1
      else if isNumStr dx ∧ dy.length < dx.length then 1
      else if lexLt dx dy then -1 else 1

/-- Model of semver `comparePrerelease`: a version with a prerelease sorts
below the same version without one; otherwise identifiers are compared
pairwise. -/
def comparePrerelease (x y : Str) : Int :=
  if x = y then 0
  else if x = [] then 1
  else if y = [] then -1
  else compPreLoop (x.length + 1) x y

/-- Model of x/mod `semver.Compare`. -/
def semverCompare (v w : Str) : Int :=
  match semverParse v, semverParse w with
  | none, none => 0
  | none, some _ => -1
  | some _, none => 1
  | some pv, some pw =>
    let c1 := compareIntGo pv.major pw.major
    if c1 ≠ 0 then c1
    else
      let c2 := compareIntGo pv.minor pw.minor
      if c2 ≠ 0 then c2
      else
        let c3 := compareIntGo pv.patch pw.patch
        if c3 ≠ 0 then c3
        else comparePrerelease pv.prerelease pw.prerelease

/-- Modelled from the spec: `common.GetMajor` is not under src/.  Per spec
section 4.1 it validates that the string is a syntactically correct semantic
version and returns the major version number ("v" plus the major digits),
reporting validity in its first component. -/
def GetMajor (v : Str) : Bool × Str := (semverIsValid v, semverMajor v)

instance {ε α : Type} [DecidableEq ε] [DecidableEq α] : DecidableEq (Except ε α) := fun x y =>
  match x, y with
  | .ok a, .ok b =>
    if h : a = b then isTrue (by rw [h]) else isFalse (by intro hh; cases hh; exact h rfl)
  | .error a, .error b =>
    if h : a = b then isTrue (by rw [h]) else isFalse (by intro hh; cases hh; exact h rfl)
  | .ok _, .error _ => isFalse (by intro hh; cases hh)
  | .error _, .ok _ => isFalse (by intro hh; cases hh)

/-- The fixed latest-release URL of the operator manifest. -/
def latestURL : Str :=
  gostr "https://github.com/knative/operator/releases/latest/download/operator.yaml"

/-- The version normalisation performed by `install.getOperatorURL`:
lower-case the string, and prepend a 'v' when the original string does not
already start with one. -/
def sanitizeVersion (v : Str) : Str :=
  if strHasPre (gostr "v") v then goToLower v else 'v' :: goToLower v

/-- Model of `install.getOperatorURL` (src/pkg/command/install/install.go). -/
def getOperatorURL (version : Str) : Except Str Str :=
  if version = gostr "latest" then Except.ok latestURL
  else
    let versionSanitized := sanitizeVersion version
    match GetMajor versionSanitized with
    | (false, _) => Except.error (version ++ gostr " is not a semantic version")
    | (true, major) =>
      Except.ok (gostr "https://github.com/knative/operator/releases/download/" ++
        (if semverCompare major (gostr "v0") = 1 then gostr "knative-" else []) ++
        versionSanitized ++ gostr "/operator.yaml")

/-- Model of `common.GetOperatorURL` (src/pkg/command/common/manifest.go).
Unlike the install variant it does not lower-case, and the final URL is
built from the original `version` argument, not the sanitized one. -/
def GetOperatorURL (version : Str) : Except Str Str :=
  if version = gostr "latest" then Except.ok latestURL
  else
    let versionSanitized := if strHasPre (gostr "v") version then version else 'v' :: version
    match GetMajor versionSanitized with
    | (false, _) => Except.error (version ++ gostr " is not a semantic version")
    | (true, major) =>
      Except.ok (gostr "https://github.com/knative/operator/releases/download/" ++
        (if semverCompare major (gostr "v0") = 1 then gostr "knative-" else []) ++
        version ++ gostr "/operator.yaml")

/-- Modelled from the spec: `common.ServingComponent` is not under src/;
the spec's component enum names the workload-serving component "serving". -/
def ServingComponent : Str := gostr "serving"

/-- Modelled from the spec: `common.EventingComponent` is not under src/;
the spec's component enum names the event-routing component "eventing". -/
def EventingComponent : Str := gostr "eventing"

/-- Modelled from the spec: `common.DefaultIstioNamespace` is not under
src/; the spec's CLI table gives the istio-namespace default
"istio-system". -/
def DefaultIstioNamespace : Str := gostr "istio-system"

/-- Modelled from the spec: `common.DefaultNamespace` is not under src/;
the spec's scenario A ensures namespace "default" when no flags are given. -/
def DefaultNamespace : Str := gostr "default"

/-- Modelled from the spec: `common.DefaultKnativeServingNamespace` is not
under src/; the spec and the command example install serving under
"knative-serving". -/
def DefaultKnativeServingNamespace : Str := gostr "knative-serving"

/-- Modelled from the spec: `common.DefaultKnativeEventingNamespace` is not
under src/; the namespace defaults by component, "knative-eventing" for
eventing. -/
def DefaultKnativeEventingNamespace : Str := gostr "knative-eventing"

/-- The flag record of the install command. -/
structure installCmdFlags where
  Component : Str
  IstioNamespace : Str
  Namespace : Str
  KubeConfig : Str
  Version : Str
deriving DecidableEq

/-- Model of `installCmdFlags.fill_defaults`
(src/pkg/command/install/install.go): fill empty Version, IstioNamespace
and Namespace. -/
def fill_defaults (flags : installCmdFlags) : installCmdFlags :=
  let f1 := if flags.Version = [] then { flags with Version := gostr "latest" } else flags
  let f2 :=
    if f1.IstioNamespace = [] ∧ goEqualFold f1.Component ServingComponent then
      { f1 with IstioNamespace := DefaultIstioNamespace }
    else f1
  if f2.Namespace = [] then
    if goEqualFold f2.Component ServingComponent then
      { f2 with Namespace := DefaultKnativeServingNamespace }
    else if goEqualFold f2.Component EventingComponent then
      { f2 with Namespace := DefaultKnativeEventingNamespace }
    else if f2.Component = [] then { f2 with Namespace := DefaultNamespace }
    else f2
  else f2

/-- Observable actions of one command invocation, in order. -/
inductive Ev where
  | nsEnsure : Str → Ev
  | downloadEv : Str → Ev
  | applyEv : Str → Ev
  | mkdirTempEv : Str → Ev
  | writeFinalEv : Str → Ev
  | applyFileEv : Str → Ev
  | removeTempEv : Str → Ev
deriving DecidableEq

/-- External-collaborator oracle for the current install command
(src/pkg/command/install/install.go): cluster client construction, working
directory, operator deployment check, HTTP download, file reads, namespace
creation, CR generation content, and manifest application. -/
structure EnvA where
  newKubeClientOk : Bool
  getwd : Except Str Str
  checkOperatorInstalled : Except Str Bool
  download : Str → Except Str Str
  readFile : Str → Except Str Str
  createNS : Str → Except Str Unit
  generateCR : Str → Str → Except Str Str
  applyManifests : Str → Str → Str → Except Str Unit

/-- The error returned when the kube client cannot be built. -/
def kubeErrMsg : Str :=
  gostr "cannot get source cluster kube config, please use --kubeconfig or export environment variable KUBECONFIG to set\n"

/-- The overlay file path selected by `getOverlayYamlContent`
(src/pkg/command/install/install.go): per component, with the
mesh-namespace-aware serving overlay when the istio namespace is not the
default; empty for an unknown component. -/
def getOverlayYamlPath (flags : installCmdFlags) (rootPath : Str) : Str :=
  if goEqualFold flags.Component ServingComponent then
    if flags.IstioNamespace ≠ DefaultIstioNamespace then
      rootPath ++ gostr "/overlay/ks_istio_ns.yaml"
    else rootPath ++ gostr "/overlay/ks.yaml"
  else if goEqualFold flags.Component EventingComponent then
    rootPath ++ gostr "/overlay/ke.yaml"
  else if flags.Component = [] then rootPath ++ gostr "/overlay/operator.yaml"
  else []

/-- Model of `install.getOverlayYamlContent`: read the selected overlay
file, ignoring any read error (`overlayContent, _ := common.ReadFile(path)`);
`common.ReadFile` (not under src/, modelled from the spec) returns empty
content alongside an error, so a failed read yields the empty string. -/
def getOverlayYamlContent (env : EnvA) (flags : installCmdFlags) (rootPath : Str) : Str :=
  let path := getOverlayYamlPath flags rootPath
  if path = [] then []
  else
    match env.readFile path with
    | .ok content => content
    | .error _ => []

/-- Model of `install.getYamlValuesContent`: the values document built by
string formatting from the flags. -/
def getYamlValuesContent (flags : installCmdFlags) : Str :=
  if goEqualFold flags.Component ServingComponent then
    let content := gostr "#@data/values\n---\nname: " ++ DefaultKnativeServingNamespace ++
      gostr "\nnamespace: " ++ flags.Namespace ++ gostr "\nversion: '" ++ flags.Version ++ gostr "'"
    if flags.IstioNamespace ≠ DefaultIstioNamespace then
      content ++ gostr "\n" ++ (gostr "local_gateway_value: knative-local-gateway." ++
        flags.IstioNamespace ++ gostr ".svc.cluster.local")
    else content
  else if goEqualFold flags.Component EventingComponent then
    gostr "#@data/values\n---\nname: " ++ DefaultKnativeEventingNamespace ++
      gostr "\nnamespace: " ++ flags.Namespace ++ gostr "\nversion: '" ++ flags.Version ++ gostr "'"
  else if flags.Component = [] then gostr "#@data/values\n---\nnamespace: " ++ flags.Namespace
  else []

/-- Model of `install.createNamspaceIfNecessary`: build the client, then
ensure the namespace (`common.Namespace.CreateNamespace`, an external
oracle here); emits the namespace-ensure event when the attempt is made. -/
def createNamspaceIfNecessary (env : EnvA) (ns : Str) : List Ev × Except Str Unit :=
  if env.newKubeClientOk then ([Ev.nsEnsure ns], env.createNS ns)
  else ([], Except.error kubeErrMsg)

/-- Model of `install.applyOverlayValuesOnTemplate`: compute overlay and
values content and hand the three documents to `common.ApplyManifests`. -/
def applyOverlayValuesOnTemplate (env : EnvA) (tpl : Str) (flags : installCmdFlags)
    (rootPath : Str) : List Ev × Except Str Unit :=
  ([Ev.applyEv flags.Namespace],
    env.applyManifests tpl (getOverlayYamlContent env flags rootPath) (getYamlValuesContent flags))

/-- Modelled from the spec: `common.GenerateOperatorCRString` is not under
src/.  Per spec section 4.3 the component path generates a custom-resource
document for the named component and defensively rejects an invalid
component name with an InvalidComponent error; the document text itself is
an oracle of the environment. -/
def GenerateOperatorCRString (env : EnvA) (component ns : Str) : Except Str Str :=
  if goEqualFold component ServingComponent ∨ goEqualFold component EventingComponent then
    env.generateCR component ns
  else Except.error (gostr "unknown component name: " ++ component)

/-- Model of `install.installOperator`: ensure the namespace, resolve the
release URL, download the base manifest, then overlay and apply. -/
def installOperator (env : EnvA) (flags : installCmdFlags) (rootPath : Str) :
    List Ev × Except Str Unit :=
  match createNamspaceIfNecessary env flags.Namespace with
  | (t, .error e) => (t, Except.error e)
  | (t, .ok _) =>
    match getOperatorURL flags.Version with
    | .error e => (t, Except.error e)
    | .ok url =>
      match env.download url with
      | .error e => (t ++ [Ev.downloadEv url], Except.error e)
      | .ok tpl =>
        let rest := applyOverlayValuesOnTemplate env tpl flags rootPath
        (t ++ [Ev.downloadEv url] ++ rest.1, rest.2)

/-- Model of `install.installKnativeComponent`: check the operator, install
it first when missing (the source drops the nested result: only its
events remain), ensure the namespace, generate the CR and apply. -/
def installKnativeComponent (env : EnvA) (flags : installCmdFlags) (rootPath : Str) :
    List Ev × Except Str Unit :=
  if env.newKubeClientOk = false then ([], Except.error kubeErrMsg)
  else
    match env.checkOperatorInstalled with
    | .error e => ([], Except.error e)
    | .ok b =>
      let nested :=
        if b then ([], Except.ok ())
        else installOperator env ⟨[], [], gostr "default", [], gostr "latest"⟩ rootPath
      match createNamspaceIfNecessary env flags.Namespace with
      | (t1, .error e) => (nested.1 ++ t1, Except.error e)
      | (t1, .ok _) =>
        match GenerateOperatorCRString env flags.Component flags.Namespace with
        | .error e => (nested.1 ++ t1, Except.error e)
        | .ok tpl =>
          let rest := applyOverlayValuesOnTemplate env tpl flags rootPath
          (nested.1 ++ t1 ++ rest.1, rest.2)

/-- Model of the install command's RunE (src/pkg/command/install/install.go):
fill defaults, resolve the working directory, then the component path or
the operator path. -/
def runInstall (env : EnvA) (flags0 : installCmdFlags) : List Ev × Except Str Unit :=
  let flags := fill_defaults flags0
  match env.getwd with
  | .error e => ([], Except.error e)
  | .ok rootPath =>
    if flags.Component ≠ [] then installKnativeComponent env flags rootPath
    else installOperator env flags rootPath

/-- External-collaborator oracle for the earlier install command revision
(src/unnamed/part_000): its RunE talks to the cluster, the filesystem and
the ytt render pipeline directly. -/
structure EnvB where
  newKubeClientOk : Bool
  restConfig : Except Str Unit
  getwd : Except Str Str
  download : Str → Except Str Str
  readFile : Str → Except Str Str
  nsGetErr : Str → Option Str
  nsFound : Str → Bool
  mkdirTemp : Except Str Unit
  renderPath : Str
  renderContent : Str
  writeFile : Str → Str → Except Str Unit
  applyFile : Str → Except Str Unit
  removeAll : Except Str Unit
  nowNanos : Nat

/-- The scratch directory name of src/unnamed/part_000:
"/tmp/temp-" followed by the unix time in milliseconds. -/
def tempDirName (nanos : Nat) : Str :=
  gostr "/tmp/temp-" ++ Nat.toDigits 10 (1 * nanos / 1000000)

/-- Namespace block of the earlier RunE (src/unnamed/part_000): only for a
non-"default" namespace, get it, create it when not found (the create
result is ignored), and surface any other get error. -/
def legacyNsStep (env : EnvB) (ns : Str) : List Ev × Except Str Unit :=
  if ns ≠ gostr "default" then
    match env.nsGetErr ns with
    | some e => ([Ev.nsEnsure ns], Except.error e)
    | none => ([Ev.nsEnsure ns], Except.ok ())
  else ([], Except.ok ())

/-- Temp-directory phase of the earlier RunE (src/unnamed/part_000): make
the scratch directory, render, write the rendered file, apply it, and only
then remove the scratch directory. -/
def legacyTempPhase (env : EnvB) : List Ev × Except Str Unit :=
  let dir := tempDirName env.nowNanos
  match env.mkdirTemp with
  | .error e => ([], Except.error e)
  | .ok _ =>
    let finalPath := env.renderPath
    match env.writeFile finalPath env.renderContent with
    | .error e => ([Ev.mkdirTempEv dir], Except.error e)
    | .ok _ =>
      match env.applyFile finalPath with
      | .error e => ([Ev.mkdirTempEv dir, Ev.writeFinalEv finalPath], Except.error e)
      | .ok _ =>
        match env.removeAll with
        | .error e =>
          ([Ev.mkdirTempEv dir, Ev.writeFinalEv finalPath, Ev.applyFileEv finalPath,
            Ev.removeTempEv dir], Except.error e)
        | .ok _ =>
          ([Ev.mkdirTempEv dir, Ev.writeFinalEv finalPath, Ev.applyFileEv finalPath,
            Ev.removeTempEv dir], Except.ok ())

/-- Model of the earlier install command's RunE (src/unnamed/part_000):
client, rest config, working directory, release URL, download, overlay
read, namespace block, then the temp-directory phase. -/
def runInstallLegacy (env : EnvB) (flags : installCmdFlags) : List Ev × Except Str Unit :=
  if env.newKubeClientOk = false then ([], Except.error kubeErrMsg)
  else
    match env.restConfig with
    | .error e => ([], Except.error e)
    | .ok _ =>
      match env.getwd with
      | .error e => ([], Except.error e)
      | .ok rootPath =>
        match GetOperatorURL flags.Version with
        | .error e => ([], Except.error e)
        | .ok url =>
          match env.download url with
          | .error e => ([Ev.downloadEv url], Except.error e)
          | .ok _tpl =>
            match env.readFile (rootPath ++ gostr "/overlay/operator.yaml") with
            | .error e => ([Ev.downloadEv url], Except.error e)
            | .ok _overlay =>
              match legacyNsStep env flags.Namespace with
              | (t1, .error e) => ([Ev.downloadEv url] ++ t1, Except.error e)
              | (t1, .ok _) =>
                let rest := legacyTempPhase env
                ([Ev.downloadEv url] ++ t1 ++ rest.1, rest.2)

/-- Cluster state for the namespace-provisioning model: the set of existing
namespaces and an oracle for unexpected API errors on the existence check. -/
structure Cluster where
  existing : List Str
  getErr : Str → Option Str

/-- The ensure-namespace step (the existence check and conditional create
of src/unnamed/part_000; `common.Namespace.CreateNamespace`, called by
`install.createNamspaceIfNecessary`, follows the same spec).  A not-found
namespace is created (the source ignores the create call's result); a
found one is left alone; any other existence-check error is surfaced
unchanged. -/
def ensureNamespaceStep (cl : Cluster) (name : Str) : Cluster × Except Str Unit :=
  match cl.getErr name with
  | some e => (cl, Except.error e)
  | none =>
    if name ∈ cl.existing then (cl, Except.ok ())
    else ({ cl with existing := name :: cl.existing }, Except.ok ())

/-- `pat` occurs contiguously inside `s`. -/
def occursIn (pat s : Str) : Prop := ∃ a b, s = a ++ (pat ++ b)

/-- Every application of a manifest is preceded, in the trace, by an
ensure-namespace attempt for the same target namespace. -/
def nsBeforeApply (t : List Ev) : Prop :=
  ∀ (ns : Str) (i : Nat), t[i]? = some (Ev.applyEv ns) →
    ∃ j, j < i ∧ t[j]? = some (Ev.nsEnsure ns)

/-- Lower-casing a parsed semver componentwise. -/
def lowerParsed (p : SemverParsed) : SemverParsed :=
  ⟨goToLower p.major, goToLower p.minor, goToLower p.patch,
    goToLower p.prerelease, goToLower p.build⟩

/-- Environment in which the operator deployment is missing and the nested
operator install fails at the manifest download, while every step of the
component install itself succeeds. -/
def envSwallow : EnvA :=
  ⟨true, Except.ok [], Except.ok false,
    fun _ => Except.error (gostr "connection refused"),
    fun _ => Except.ok (gostr "overlay-content"),
    fun _ => Except.ok (),
    fun _ _ => Except.ok (gostr "cr-document"),
    fun _ _ _ => Except.ok ()⟩

/-- Serving-component flags used to exercise the swallowed nested error. -/
def flagsSwallow : installCmdFlags :=
  ⟨gostr "serving", gostr "istio-system", gostr "knative-serving", [], gostr "v1.9.0"⟩

/-- Environment for the earlier RunE in which everything succeeds up to and
including the scratch-directory creation, and writing the rendered file
then fails. -/
def envWriteFail : EnvB :=
  ⟨true, Except.ok (), Except.ok (gostr "/root"),
    fun _ => Except.ok (gostr "operator-yaml"),
    fun _ => Except.ok (gostr "overlay-content"),
    fun _ => none, fun _ => false,
    Except.ok (), gostr "tpl.yml", gostr "rendered",
    fun _ _ => Except.error (gostr "disk full"),
    fun _ => Except.ok (), Except.ok (), 1234000000⟩

/-- Flags of the no-flag invocation of the earlier RunE (its namespace flag
defaults to "default"). -/
def flagsLegacyDefault : installCmdFlags :=
  ⟨[], [], gostr "default", [], gostr "latest"⟩

/-- A fully succeeding environment for the current install command. -/
def envAllOk : EnvA :=
  ⟨true, Except.ok [], Except.ok true,
    fun _ => Except.ok (gostr "operator-yaml"),
    fun _ => Except.ok (gostr "overlay-content"),
    fun _ => Except.ok (),
    fun _ _ => Except.ok (gostr "cr-document"),
    fun _ _ _ => Except.ok ()⟩

theorem charToNat_inj {a b : Char} (h : a.toNat = b.toNat) : a = b := Char.ext (UInt32.ext h)

theorem charToLower_of_not_upper {c : Char} (h : ¬(65 ≤ c.toNat ∧ c.toNat ≤ 90)) :
    charToLower c = c := by
  unfold charToLower
  rw [if_neg h]

theorem charToLower_toNat_of_upper {c : Char} (h : 65 ≤ c.toNat ∧ c.toNat ≤ 90) :
    (charToLower c).toNat = c.toNat + 32 := by
  unfold charToLower
  rw [if_pos h]
  have hv : Nat.isValidChar (c.toNat + 32) := Or.inl (by omega)
  simp [Char.ofNat, hv]
  rfl


theorem isDigit_charToLower (c : Char) : isDigitGo (charToLower c) = isDigitGo c := by
  by_cases h : 65 ≤ c.toNat ∧ c.toNat ≤ 90
  · unfold isDigitGo
    rw [charToLower_toNat_of_upper h, decide_eq_decide]
    omega
  · rw [charToLower_of_not_upper h]

theorem isIdent_charToLower (c : Char) : isIdentChar (charToLower c) = isIdentChar c := by
  by_cases h : 65 ≤ c.toNat ∧ c.toNat ≤ 90
  · unfold isIdentChar
    rw [charToLower_toNat_of_upper h, decide_eq_decide]
    omega
  · rw [charToLower_of_not_upper h]

theorem charToLower_eq_iff {x : Char} (hx1 : ¬(65 ≤ x.toNat ∧ x.toNat ≤ 90))
    (hx2 : ¬(97 ≤ x.toNat ∧ x.toNat ≤ 122)) (c : Char) :
    (charToLower c = x) = (c = x) := by
  by_cases h : 65 ≤ c.toNat ∧ c.toNat ≤ 90
  · apply propext
    constructor
    · intro he
      exfalso
      have ht := charToLower_toNat_of_upper h
      rw [he] at ht
      omega
    · intro he
      exact absurd (he ▸ h) hx1
  · rw [charToLower_of_not_upper h]

theorem notDotPlus_charToLower (c : Char) : notDotPlus (charToLower c) = notDotPlus c := by
  unfold notDotPlus
  rw [decide_eq_decide, charToLower_eq_iff (by decide) (by decide),
    charToLower_eq_iff (by decide) (by decide)]

theorem notDot_charToLower (c : Char) : notDot (charToLower c) = notDot c := by
  unfold notDot
  rw [decide_eq_decide, charToLower_eq_iff (by decide) (by decide)]

theorem takeWhile_map_comm (p : Char → Bool) (hp : ∀ c, p (charToLower c) = p c) (v : Str) :
    (goToLower v).takeWhile p = goToLower (v.takeWhile p) := by
  induction v with
  | nil => rfl
  | cons c t ih =>
    show (charToLower c :: t.map charToLower).takeWhile p = ((c :: t).takeWhile p).map charToLower
    rw [List.takeWhile_cons, List.takeWhile_cons, hp c]
    by_cases h : p c
    · rw [if_pos h, if_pos h, List.map_cons]
      exact congrArg _ ih
    · rw [if_neg h, if_neg h]
      rfl

theorem dropWhile_map_comm (p : Char → Bool) (hp : ∀ c, p (charToLower c) = p c) (v : Str) :
    (goToLower v).dropWhile p = goToLower (v.dropWhile p) := by
  induction v with
  | nil => rfl
  | cons c t ih =>
    show (charToLower c :: t.map charToLower).dropWhile p = ((c :: t).dropWhile p).map charToLower
    rw [List.dropWhile_cons, List.dropWhile_cons, hp c]
    by_cases h : p c
    · rw [if_pos h, if_pos h]
      exact ih
    · rw [if_neg h, if_neg h]
      rfl

theorem all_map_comm (p : Char → Bool) (hp : ∀ c, p (charToLower c) = p c) (v : Str) :
    (goToLower v).all p = v.all p := by
  induction v with
  | nil => rfl
  | cons c t ih =>
    show (charToLower c :: t.map charToLower).all p = (c :: t).all p
    rw [List.all_cons, List.all_cons, hp c]
    exact congrArg _ ih

theorem goToLower_eq_nil (s : Str) : (goToLower s = []) = (s = []) := by
  cases s <;> simp [goToLower]

theorem tail_map_comm (s : Str) : (goToLower s).tail = goToLower s.tail := by
  cases s <;> rfl

theorem length_goToLower (s : Str) : (goToLower s).length = s.length := List.length_map _ _

theorem headEq_map (x : Char) (hx1 : ¬(65 ≤ x.toNat ∧ x.toNat ≤ 90))
    (hx2 : ¬(97 ≤ x.toNat ∧ x.toNat ≤ 122)) (s : Str) :
    ((goToLower s).head? = some x) = (s.head? = some x) := by
  cases s with
  | nil => rfl
  | cons c t =>
    show (some (charToLower c) = some x) = (some c = some x)
    simp only [Option.some.injEq]
    exact charToLower_eq_iff hx1 hx2 c

theorem isNumStr_map (s : Str) : isNumStr (goToLower s) = isNumStr s := by
  unfold isNumStr
  exact all_map_comm isDigitGo isDigit_charToLower s

theorem isBadNum_map (s : Str) : isBadNum (goToLower s) = isBadNum s := by
  unfold isBadNum
  rw [decide_eq_decide, isNumStr_map, length_goToLower,
    headEq_map '0' (by decide) (by decide)]

theorem goToLower_cons (c : Char) (t : Str) :
    goToLower (c :: t) = charToLower c :: goToLower t := rfl

theorem goToLower_append (a b : Str) :
    goToLower (a ++ b) = goToLower a ++ goToLower b := List.map_append _ _ _

theorem parseIntGo_map (v : Str) :
    parseIntGo (goToLower v) = (parseIntGo v).map (fun pr => (goToLower pr.1, goToLower pr.2)) := by
  cases v with
  | nil => rfl
  | cons c t =>
    have htw := takeWhile_map_comm isDigitGo isDigit_charToLower (c :: t)
    have hdw := dropWhile_map_comm isDigitGo isDigit_charToLower (c :: t)
    have hz : (charToLower c = '0') = (c = '0') := charToLower_eq_iff (by decide) (by decide) c
    show parseIntGo (charToLower c :: t.map charToLower) = _
    simp only [parseIntGo]
    rw [isDigit_charToLower]
    by_cases h : isDigitGo c
    · rw [if_pos h, if_pos h]
      rw [show (charToLower c :: t.map charToLower) = goToLower (c :: t) from rfl, htw, hdw,
        length_goToLower]
      simp only [hz]
      by_cases hg : c = '0' ∧ ((c :: t).takeWhile isDigitGo).length ≠ 1
      · rw [if_pos hg, if_pos hg]
        rfl
      · rw [if_neg hg, if_neg hg]
        rfl
    · rw [if_neg h, if_neg h]
      rfl

theorem charToLower_dot : charToLower '.' = '.' := by decide

theorem charToLower_plus : charToLower '+' = '+' := by decide

theorem charToLower_dash : charToLower '-' = '-' := by decide

theorem charToLower_v : charToLower 'v' = 'v' := by decide

theorem parsePreF_map (n : Nat) : ∀ v : Str,
    parsePreF n (goToLower v) =
      (parsePreF n v).map (fun pr => (goToLower pr.1, goToLower pr.2)) := by
  induction n with
  | zero => intro v; rfl
  | succ m ih =>
    intro v
    have htw := takeWhile_map_comm notDotPlus notDotPlus_charToLower v
    have hdw := dropWhile_map_comm notDotPlus notDotPlus_charToLower v
    simp only [parsePreF]
    rw [htw, hdw]
    simp only [goToLower_eq_nil, all_map_comm isIdentChar isIdent_charToLower, isBadNum_map,
      headEq_map '.' (by decide) (by decide), tail_map_comm]
    by_cases h1 : v.takeWhile notDotPlus = []
    · rw [if_pos h1, if_pos h1]
      rfl
    · rw [if_neg h1, if_neg h1]
      by_cases h2 : ¬ (v.takeWhile notDotPlus).all isIdentChar
      · rw [if_pos h2, if_pos h2]
        rfl
      · rw [if_neg h2, if_neg h2]
        by_cases h3 : isBadNum (v.takeWhile notDotPlus)
        · rw [if_pos h3, if_pos h3]
          rfl
        · rw [if_neg h3, if_neg h3]
          by_cases h4 : (v.dropWhile notDotPlus).head? = some '.'
          · rw [if_pos h4, if_pos h4, ih ((v.dropWhile notDotPlus).tail)]
            rcases hrec : parsePreF m (v.dropWhile notDotPlus).tail with _ | ⟨body, r⟩
            · rfl
            · simp only [Option.map_some']
              simp only [goToLower_append, goToLower_cons, charToLower_dot]
          · rw [if_neg h4, if_neg h4]
            rfl

theorem parseBuildF_map (n : Nat) : ∀ v : Str,
    parseBuildF n (goToLower v) = (parseBuildF n v).map goToLower := by
  induction n with
  | zero => intro v; rfl
  | succ m ih =>
    intro v
    have htw := takeWhile_map_comm notDot notDot_charToLower v
    have hdw := dropWhile_map_comm notDot notDot_charToLower v
    simp only [parseBuildF]
    rw [htw, hdw]
    simp only [goToLower_eq_nil, all_map_comm isIdentChar isIdent_charToLower,
      headEq_map '.' (by decide) (by decide), tail_map_comm]
    by_cases h1 : v.takeWhile notDot = []
    · rw [if_pos h1, if_pos h1]
      rfl
    · rw [if_neg h1, if_neg h1]
      by_cases h2 : ¬ (v.takeWhile notDot).all isIdentChar
      · rw [if_pos h2, if_pos h2]
        rfl
      · rw [if_neg h2, if_neg h2]
        by_cases h3 : (v.dropWhile notDot).head? = some '.'
        · rw [if_pos h3, if_pos h3, ih ((v.dropWhile notDot).tail)]
          rcases hrec : parseBuildF m (v.dropWhile notDot).tail with _ | body
          · rfl
          · simp only [Option.map_some']
            simp only [goToLower_append, goToLower_cons, charToLower_dot]
        · rw [if_neg h3, if_neg h3]
          rfl

theorem parseAfterPre_map (maj mnr ptc pre r4 : Str) :
    parseAfterPre (goToLower maj) (goToLower mnr) (goToLower ptc) (goToLower pre) (goToLower r4) =
      (parseAfterPre maj mnr ptc pre r4).map lowerParsed := by
  unfold parseAfterPre
  simp only [goToLower_eq_nil, headEq_map '+' (by decide) (by decide), tail_map_comm,
    length_goToLower]
  by_cases h1 : r4 = []
  · rw [if_pos h1, if_pos h1]
    rfl
  · rw [if_neg h1, if_neg h1]
    by_cases h2 : r4.head? = some '+'
    · rw [if_pos h2, if_pos h2, parseBuildF_map (r4.tail.length + 1) r4.tail]
      rcases hrec : parseBuildF (r4.tail.length + 1) r4.tail with _ | body
      · rfl
      · simp only [Option.map_some']
        rfl
    · rw [if_neg h2, if_neg h2]
      rfl

theorem parseExtra_map (maj mnr ptc r3 : Str) :
    parseExtra (goToLower maj) (goToLower mnr) (goToLower ptc) (goToLower r3) =
      (parseExtra maj mnr ptc r3).map lowerParsed := by
  unfold parseExtra
  simp only [headEq_map '-' (by decide) (by decide), tail_map_comm, length_goToLower]
  by_cases h1 : r3.head? = some '-'
  · rw [if_pos h1, if_pos h1, parsePreF_map (r3.tail.length + 1) r3.tail]
    rcases hrec : parsePreF (r3.tail.length + 1) r3.tail with _ | ⟨body, r⟩
    · rfl
    · simp only [Option.map_some']
      rw [show ('-' :: goToLower body : Str) = goToLower ('-' :: body) from by
        rw [goToLower_cons, charToLower_dash]]
      exact parseAfterPre_map maj mnr ptc ('-' :: body) r
  · rw [if_neg h1, if_neg h1]
    exact parseAfterPre_map maj mnr ptc [] r3

theorem parseTail_map (t : Str) :
    parseTail (goToLower t) = (parseTail t).map lowerParsed := by
  unfold parseTail
  rw [parseIntGo_map t]
  rcases h0 : parseIntGo t with _ | ⟨maj, r1⟩
  · rfl
  · simp only [Option.map_some']
    simp only [goToLower_eq_nil, headEq_map '.' (by decide) (by decide), tail_map_comm]
    by_cases h1 : r1 = []
    · rw [if_pos h1, if_pos h1]
      rfl
    · rw [if_neg h1, if_neg h1]
      by_cases h2 : r1.head? = some '.'
      · rw [if_pos h2, if_pos h2, parseIntGo_map r1.tail]
        rcases h3 : parseIntGo r1.tail with _ | ⟨mnr, r2⟩
        · rfl
        · simp only [Option.map_some']
          simp only [goToLower_eq_nil, headEq_map '.' (by decide) (by decide), tail_map_comm]
          by_cases h4 : r2 = []
          · rw [if_pos h4, if_pos h4]
            rfl
          · rw [if_neg h4, if_neg h4]
            by_cases h5 : r2.head? = some '.'
            · rw [if_pos h5, if_pos h5, parseIntGo_map r2.tail]
              rcases h6 : parseIntGo r2.tail with _ | ⟨ptc, r3⟩
              · rfl
              · simp only [Option.map_some']
                exact parseExtra_map maj mnr ptc r3
            · rw [if_neg h5, if_neg h5]
              rfl
      · rw [if_neg h2, if_neg h2]
        rfl

theorem semverParse_goToLower_vcons (t : Str) :
    semverParse ('v' :: goToLower t) = (semverParse ('v' :: t)).map lowerParsed := by
  show parseTail (goToLower t) = (parseTail t).map lowerParsed
  exact parseTail_map t

theorem charLt_iff (a b : Char) : (a < b) ↔ a.toNat < b.toNat := by
  rw [Char.lt_iff_val_lt_val]
  rfl

theorem parseIntGo_props {v d r : Str} (h : parseIntGo v = some (d, r)) :
    d ≠ [] ∧ d.all isDigitGo = true ∧ (d.head? = some '0' → d = ['0']) ∧ v = d ++ r := by
  cases v with
  | nil => exact absurd h (by simp [parseIntGo])
  | cons c t =>
    simp only [parseIntGo] at h
    by_cases hd : isDigitGo c
    · rw [if_pos hd] at h
      by_cases hg : c = '0' ∧ ((c :: t).takeWhile isDigitGo).length ≠ 1
      · rw [if_pos hg] at h
        exact absurd h (by simp)
      · rw [if_neg hg] at h
        simp only [Option.some.injEq, Prod.mk.injEq] at h
        obtain ⟨h1, h2⟩ := h
        subst h1
        subst h2
        have hcons : (c :: t).takeWhile isDigitGo = c :: t.takeWhile isDigitGo := by
          rw [List.takeWhile_cons, if_pos hd]
        refine ⟨by rw [hcons]; simp, List.all_takeWhile, ?_,
          (List.takeWhile_append_dropWhile _ _).symm⟩
        intro hz
        rw [hcons] at hz
        simp only [List.head?_cons, Option.some.injEq] at hz
        subst hz
        have hlen : ((('0' : Char) :: t).takeWhile isDigitGo).length = 1 := by
          by_contra hne
          exact hg ⟨rfl, hne⟩
        rw [hcons] at hlen ⊢
        simp only [List.length_cons] at hlen
        have hlen0 : (List.takeWhile isDigitGo t).length = 0 := by omega
        rw [List.length_eq_zero] at hlen0
        rw [hlen0]
    · rw [if_neg hd] at h
      exact absurd h (by simp)

theorem parseIntGo_full {d : Str} (hne : d ≠ []) (hall : d.all isDigitGo = true)
    (hz : d.head? = some '0' → d = ['0']) : parseIntGo d = some (d, []) := by
  cases d with
  | nil => exact absurd rfl hne
  | cons c t =>
    have hall' := hall
    rw [List.all_cons, Bool.and_eq_true] at hall'
    simp only [parseIntGo]
    rw [if_pos hall'.1]
    have htw : (c :: t).takeWhile isDigitGo = c :: t :=
      List.takeWhile_eq_self_iff.mpr (fun x hx => by
        rw [List.all_eq_true] at hall
        exact hall x hx)
    have hdw : (c :: t).dropWhile isDigitGo = [] :=
      List.dropWhile_eq_nil_iff.mpr (fun x hx => by
        rw [List.all_eq_true] at hall
        exact hall x hx)
    rw [htw, hdw]
    have hguard : ¬(c = '0' ∧ (c :: t).length ≠ 1) := by
      rintro ⟨hc0, hlen⟩
      subst hc0
      have := hz rfl
      simp only [List.cons.injEq] at this
      exact hlen (by rw [this.2]; rfl)
    rw [if_neg hguard]

theorem digitsToNat_aux_ge (t : Str) : ∀ a : Nat, 1 ≤ a →
    1 ≤ t.foldl (fun a c => 10 * a + (c.toNat - 48)) a := by
  induction t with
  | nil => intro a ha; exact ha
  | cons c t ih =>
    intro a ha
    rw [List.foldl_cons]
    exact ih _ (by omega)

theorem digitsToNat_pos {d : Str} (hne : d ≠ []) (hall : d.all isDigitGo = true)
    (hz : d.head? = some '0' → d = ['0']) (h0 : d ≠ ['0']) : 0 < digitsToNat d := by
  cases d with
  | nil => exact absurd rfl hne
  | cons c t =>
    rw [List.all_cons, Bool.and_eq_true] at hall
    have hc : 48 ≤ c.toNat ∧ c.toNat ≤ 57 := of_decide_eq_true hall.1
    have hcz : c ≠ '0' := by
      intro he
      subst he
      exact h0 (hz rfl)
    have hcn : c.toNat ≠ 48 := fun hh => hcz (charToNat_inj (hh.trans rfl))
    unfold digitsToNat
    rw [List.foldl_cons]
    exact digitsToNat_aux_ge t _ (by omega)

theorem parseAfterPre_major {maj mnr ptc pre r4 : Str} {p : SemverParsed}
    (h : parseAfterPre maj mnr ptc pre r4 = some p) : p.major = maj := by
  unfold parseAfterPre at h
  split_ifs at h with h1 h2
  · simp only [Option.some.injEq] at h
    subst h
    rfl
  · rcases hb : parseBuildF (r4.tail.length + 1) r4.tail with _ | body <;> simp only [hb] at h
    · exact absurd h (by simp)
    · simp only [Option.some.injEq] at h
      subst h
      rfl

theorem parseExtra_major {maj mnr ptc r3 : Str} {p : SemverParsed}
    (h : parseExtra maj mnr ptc r3 = some p) : p.major = maj := by
  unfold parseExtra at h
  split_ifs at h with h1
  · rcases hb : parsePreF (r3.tail.length + 1) r3.tail with _ | ⟨body, r⟩ <;> simp only [hb] at h
    · exact absurd h (by simp)
    · exact parseAfterPre_major h
  · exact parseAfterPre_major h

theorem parseTail_major {t : Str} {p : SemverParsed} (h : parseTail t = some p) :
    ∃ r1, parseIntGo t = some (p.major, r1) := by
  unfold parseTail at h
  rcases h0 : parseIntGo t with _ | ⟨maj, r1⟩ <;> simp only [h0] at h
  · exact absurd h (by simp)
  · refine ⟨r1, ?_⟩
    split_ifs at h with h1 h2
    · simp only [Option.some.injEq] at h
      subst h
      rfl
    · rcases h3 : parseIntGo r1.tail with _ | ⟨mnr, r2⟩ <;> simp only [h3] at h
      · exact absurd h (by simp)
      · split_ifs at h with h4 h5
        · simp only [Option.some.injEq] at h
          subst h
          rfl
        · rcases h6 : parseIntGo r2.tail with _ | ⟨ptc, r3⟩ <;> simp only [h6] at h
          · exact absurd h (by simp)
          · rw [parseExtra_major h]

theorem semverParse_vcons {s : Str} {p : SemverParsed} (h : semverParse s = some p) :
    ∃ t, s = 'v' :: t ∧ parseTail t = some p := by
  unfold semverParse at h
  split_ifs at h with hh
  · cases s with
    | nil => exact absurd hh (by simp)
    | cons c t =>
      simp only [List.head?_cons, Option.some.injEq] at hh
      subst hh
      exact ⟨t, rfl, h⟩

theorem semverParse_major_props {s : Str} {p : SemverParsed} (h : semverParse s = some p) :
    p.major ≠ [] ∧ p.major.all isDigitGo = true ∧ (p.major.head? = some '0' → p.major = ['0']) := by
  obtain ⟨t, hs, ht⟩ := semverParse_vcons h
  obtain ⟨r1, h1⟩ := parseTail_major ht
  obtain ⟨a, b, c, _⟩ := parseIntGo_props h1
  exact ⟨a, b, c⟩

theorem semverParse_vmajor {d : Str} (hne : d ≠ []) (hall : d.all isDigitGo = true)
    (hz : d.head? = some '0' → d = ['0']) :
    semverParse ('v' :: d) = some ⟨d, ['0'], ['0'], [], []⟩ := by
  show parseTail d = _
  unfold parseTail
  rw [parseIntGo_full hne hall hz]
  rfl

theorem semverCompare_vd_v0 {d : Str} (hne : d ≠ []) (hall : d.all isDigitGo = true)
    (hz : d.head? = some '0' → d = ['0']) :
    semverCompare ('v' :: d) (gostr "v0") = (if d = ['0'] then 0 else 1) := by
  have h1 := semverParse_vmajor hne hall hz
  have h2 : semverParse (gostr "v0") = some ⟨['0'], ['0'], ['0'], [], []⟩ := by decide
  unfold semverCompare
  rw [h1, h2]
  by_cases hd : d = ['0']
  · subst hd
    rw [if_pos rfl]
    decide
  · rw [if_neg hd]
    have hc1 : compareIntGo d ['0'] = 1 := by
      unfold compareIntGo
      rw [if_neg (by exact hd)]
      cases d with
      | nil => exact absurd rfl hne
      | cons c t =>
        cases t with
        | nil =>
          rw [if_neg (by simp), if_neg (by simp)]
          rw [List.all_cons, Bool.and_eq_true] at hall
          have hc : 48 ≤ c.toNat ∧ c.toNat ≤ 57 := of_decide_eq_true hall.1
          have hcz : c ≠ '0' := fun he => hd (by rw [he])
          have hcn : c.toNat ≠ 48 := fun hh => hcz (charToNat_inj (hh.trans rfl))
          have hlex : lexLt [c] ['0'] = false := by
            unfold lexLt
            rw [if_neg ((charLt_iff c '0').not.mpr (by
              rw [show Char.toNat '0' = 48 from rfl]
              omega))]
            rw [if_pos ((charLt_iff '0' c).mpr (by
              rw [show Char.toNat '0' = 48 from rfl]
              omega))]
          rw [hlex]
          simp
        | cons c2 t2 =>
          rw [if_neg (by simp), if_pos (by simp)]
    simp only [hc1]
    norm_num

/-- Claim C1: for every version string, `install.getOperatorURL` returns
the fixed latest-release URL exactly for "latest"; otherwise the string is
lower-cased and prefixed with "v" when that prefix is absent, and if the
result is a valid semantic version the versioned download URL contains it
verbatim with the "knative-" segment present iff the major version is
greater than 0, while an invalid result yields an error and no URL. -/
theorem C1_getOperatorURL_spec (v : Str) :
    (v = gostr "latest" → getOperatorURL v = Except.ok latestURL) ∧
    (v ≠ gostr "latest" →
      (semverIsValid (sanitizeVersion v) = true →
        getOperatorURL v = Except.ok
          (gostr "https://github.com/knative/operator/releases/download/" ++
            (if 0 < semverMajorNat (sanitizeVersion v) then gostr "knative-" else []) ++
            sanitizeVersion v ++ gostr "/operator.yaml")) ∧
      (semverIsValid (sanitizeVersion v) = false →
        getOperatorURL v = Except.error (v ++ gostr " is not a semantic version"))) := by
  constructor
  · intro hv
    unfold getOperatorURL
    rw [if_pos hv]
  · intro hv
    constructor
    · intro hval
      rcases hp : semverParse (sanitizeVersion v) with _ | p
      · rw [semverIsValid, hp] at hval
        exact absurd hval (by simp)
      · have hGM : GetMajor (sanitizeVersion v) = (true, 'v' :: p.major) := by
          unfold GetMajor semverIsValid semverMajor
          rw [hp]
          rfl
        obtain ⟨hmne, hmall, hmz⟩ := semverParse_major_props hp
        have hcmp := semverCompare_vd_v0 hmne hmall hmz
        have hnat : semverMajorNat (sanitizeVersion v) = digitsToNat p.major := by
          unfold semverMajorNat
          rw [hp]
        have hiff : (semverCompare ('v' :: p.major) (gostr "v0") = 1) =
            (0 < semverMajorNat (sanitizeVersion v)) := by
          rw [hcmp, hnat]
          apply propext
          by_cases hz : p.major = ['0']
          · rw [if_pos hz, hz]
            constructor
            · intro hcon
              exact absurd hcon (by norm_num)
            · intro hcon
              exact absurd hcon (by decide)
          · rw [if_neg hz]
            exact iff_of_true rfl (digitsToNat_pos hmne hmall hmz hz)
        unfold getOperatorURL
        rw [if_neg hv]
        simp only [hGM]
        simp only [hiff]
    · intro hval
      rcases hp : semverParse (sanitizeVersion v) with _ | p
      · have hGM : GetMajor (sanitizeVersion v) = (false, []) := by
          unfold GetMajor semverIsValid semverMajor
          rw [hp]
          rfl
        unfold getOperatorURL
        rw [if_neg hv]
        simp only [hGM]
      · rw [semverIsValid, hp] at hval
        exact absurd hval (by simp)

/-- Witness for C1 at the concrete inputs "1.2.3" (valid after
sanitisation, major 1 > 0) and "abc" (invalid after sanitisation). -/
theorem C1_getOperatorURL_spec_witness :
    getOperatorURL (gostr "1.2.3") = Except.ok
      (gostr "https://github.com/knative/operator/releases/download/" ++
        (if 0 < semverMajorNat (sanitizeVersion (gostr "1.2.3")) then gostr "knative-" else []) ++
        sanitizeVersion (gostr "1.2.3") ++ gostr "/operator.yaml") ∧
    getOperatorURL (gostr "abc") =
      Except.error (gostr "abc" ++ gostr " is not a semantic version") :=
  ⟨((C1_getOperatorURL_spec (gostr "1.2.3")).2 (by decide)).1 (by decide),
   ((C1_getOperatorURL_spec (gostr "abc")).2 (by decide)).2 (by decide)⟩

theorem strHasPre_v {v : Str} (h : strHasPre (gostr "v") v = true) : ∃ t, v = 'v' :: t := by
  cases v with
  | nil => exact absurd h (by decide)
  | cons c t =>
    rw [show gostr "v" = ['v'] from rfl] at h
    simp only [strHasPre, decide_eq_true_eq] at h
    rw [← h.1]
    exact ⟨t, rfl⟩

theorem sanitize_eq_lower_cand (v : Str) :
    sanitizeVersion v = goToLower (if strHasPre (gostr "v") v then v else 'v' :: v) := by
  unfold sanitizeVersion
  by_cases h : strHasPre (gostr "v") v
  · rw [if_pos h, if_pos h]
  · rw [if_neg h, if_neg h, goToLower_cons, charToLower_v]

theorem semverParse_sanitize (v : Str) :
    semverParse (sanitizeVersion v) =
      (semverParse (if strHasPre (gostr "v") v then v else 'v' :: v)).map lowerParsed := by
  rw [sanitize_eq_lower_cand]
  by_cases h : strHasPre (gostr "v") v
  · rw [if_pos h]
    obtain ⟨t, ht⟩ := strHasPre_v h
    rw [ht, goToLower_cons, charToLower_v]
    exact semverParse_goToLower_vcons t
  · rw [if_neg h, goToLower_cons, charToLower_v]
    exact semverParse_goToLower_vcons v

/-- Claim C3 counterexample: at version "1.2.3" the two release locators
disagree; `install.getOperatorURL` puts the sanitized "v1.2.3" into the
URL while `common.GetOperatorURL` uses the original "1.2.3". -/
theorem C3_counterexample :
    getOperatorURL (gostr "1.2.3") ≠ GetOperatorURL (gostr "1.2.3") := by decide

/-- Claim C3 (amended): the two release locators agree on the error/no-error
outcome for every version string, and return identical results whenever the
version is "latest" or already starts with "v" and contains no upper-case
letter; on other valid versions the returned URLs differ in the version
segment. -/
theorem C3_amended (v : Str) :
    ((getOperatorURL v).isOk = (GetOperatorURL v).isOk) ∧
    (v = gostr "latest" ∨ (strHasPre (gostr "v") v = true ∧ goToLower v = v) →
      getOperatorURL v = GetOperatorURL v) := by
  by_cases hv : v = gostr "latest"
  · subst hv
    exact ⟨rfl, fun _ => rfl⟩
  · constructor
    · unfold getOperatorURL GetOperatorURL
      rw [if_neg hv, if_neg hv]
      have hpar := semverParse_sanitize v
      rcases hq : semverParse (if strHasPre (gostr "v") v then v else 'v' :: v) with _ | p
      · have h1 : GetMajor (sanitizeVersion v) = (false, []) := by
          unfold GetMajor semverIsValid semverMajor
          rw [hpar, hq]
          rfl
        have h2 : GetMajor (if strHasPre (gostr "v") v then v else 'v' :: v) = (false, []) := by
          unfold GetMajor semverIsValid semverMajor
          rw [hq]
          rfl
        simp only [h1, h2]
      · have h1 : GetMajor (sanitizeVersion v) = (true, 'v' :: (lowerParsed p).major) := by
          unfold GetMajor semverIsValid semverMajor
          rw [hpar, hq]
          rfl
        have h2 : GetMajor (if strHasPre (gostr "v") v then v else 'v' :: v) =
            (true, 'v' :: p.major) := by
          unfold GetMajor semverIsValid semverMajor
          rw [hq]
          rfl
        simp only [h1, h2]
        rfl
    · intro hcase
      rcases hcase with h | ⟨hpre, hlow⟩
      · exact absurd h hv
      · have hsan : sanitizeVersion v = v := by
          unfold sanitizeVersion
          rw [if_pos hpre, hlow]
        unfold getOperatorURL GetOperatorURL
        rw [if_neg hv, if_neg hv]
        simp only [hsan, if_pos hpre]

/-- Witness for the amended C3 at the concrete version "v1.2.3". -/
theorem C3_amended_witness :
    getOperatorURL (gostr "v1.2.3") = GetOperatorURL (gostr "v1.2.3") :=
  (C3_amended (gostr "v1.2.3")).2 (Or.inr ⟨by decide, by decide⟩)

theorem not_serving_and_eventing {c : Str}
    (hs : goEqualFold c ServingComponent = true)
    (he : goEqualFold c EventingComponent = true) : False := by
  unfold goEqualFold at hs he
  rw [decide_eq_true_eq] at hs he
  have : goToLower ServingComponent = goToLower EventingComponent := hs.symm.trans he
  exact absurd this (by decide)

theorem goEqualFold_nil_serving : goEqualFold ([] : Str) ServingComponent = false := by decide

theorem goEqualFold_nil_eventing : goEqualFold ([] : Str) EventingComponent = false := by decide

theorem fill_defaults_eq (f : installCmdFlags) :
    fill_defaults f = ⟨f.Component,
      (if f.IstioNamespace = [] ∧ goEqualFold f.Component ServingComponent then
        DefaultIstioNamespace else f.IstioNamespace),
      (if f.Namespace = [] then
        (if goEqualFold f.Component ServingComponent then DefaultKnativeServingNamespace
         else if goEqualFold f.Component EventingComponent then DefaultKnativeEventingNamespace
         else if f.Component = [] then DefaultNamespace else f.Namespace)
       else f.Namespace),
      f.KubeConfig,
      (if f.Version = [] then gostr "latest" else f.Version)⟩ := by
  by_cases h1 : f.Version = [] <;>
    by_cases h2 : f.IstioNamespace = [] ∧ goEqualFold f.Component ServingComponent <;>
    by_cases h3 : f.Namespace = [] <;>
    by_cases h4 : goEqualFold f.Component ServingComponent <;>
    by_cases h5 : goEqualFold f.Component EventingComponent <;>
    by_cases h6 : f.Component = [] <;>
    first
      | exact (not_serving_and_eventing h4 h5).elim
      | exact absurd h2.2 h4
      | simp_all [fill_defaults, goEqualFold_nil_serving, goEqualFold_nil_eventing]
  all_goals
    obtain ⟨c, i, n, k, ver⟩ := f
    simp_all

/-- Claim C6: `fill_defaults` turns an empty Version into "latest", an
empty IstioNamespace into the default istio namespace exactly when the
component folds to "serving", and an empty Namespace into the serving,
eventing or plain default namespace according to the component; non-empty
fields and the other fields are untouched. -/
theorem C6_fill_defaults_spec (f : installCmdFlags) :
    ((fill_defaults f).Component = f.Component) ∧
    ((fill_defaults f).KubeConfig = f.KubeConfig) ∧
    (f.Version = [] → (fill_defaults f).Version = gostr "latest") ∧
    (f.Version ≠ [] → (fill_defaults f).Version = f.Version) ∧
    (f.IstioNamespace = [] → goEqualFold f.Component ServingComponent →
      (fill_defaults f).IstioNamespace = DefaultIstioNamespace) ∧
    (f.IstioNamespace = [] → ¬ goEqualFold f.Component ServingComponent →
      (fill_defaults f).IstioNamespace = []) ∧
    (f.IstioNamespace ≠ [] → (fill_defaults f).IstioNamespace = f.IstioNamespace) ∧
    (f.Namespace = [] → goEqualFold f.Component ServingComponent →
      (fill_defaults f).Namespace = DefaultKnativeServingNamespace) ∧
    (f.Namespace = [] → goEqualFold f.Component EventingComponent →
      (fill_defaults f).Namespace = DefaultKnativeEventingNamespace) ∧
    (f.Namespace = [] → f.Component = [] →
      (fill_defaults f).Namespace = DefaultNamespace) ∧
    (f.Namespace ≠ [] → (fill_defaults f).Namespace = f.Namespace) := by
  have hfd := fill_defaults_eq f
  refine ⟨?_, ?_, ?_, ?_, ?_, ?_, ?_, ?_, ?_, ?_, ?_⟩
  · rw [hfd]
  · rw [hfd]
  · intro h
    rw [hfd]
    simp [h]
  · intro h
    rw [hfd]
    simp [h]
  · intro h1 h2
    rw [hfd]
    simp [h1, h2]
  · intro h1 h2
    rw [hfd]
    simp [h1, h2]
  · intro h
    rw [hfd]
    simp [h]
  · intro h1 h2
    rw [hfd]
    simp [h1, h2]
  · intro h1 h2
    have hs : ¬ goEqualFold f.Component ServingComponent = true :=
      fun hs => not_serving_and_eventing hs h2
    rw [hfd]
    simp [h1, h2, hs]
  · intro h1 h2
    have hs : goEqualFold ([] : Str) ServingComponent = false := by decide
    have he : goEqualFold ([] : Str) EventingComponent = false := by decide
    rw [hfd]
    simp [h1, h2, hs, he]
  · intro h
    rw [hfd]
    simp [h]

/-- Witness for C6: serving component with all other flags empty gets
version "latest", the default istio namespace and the serving namespace. -/
theorem C6_fill_defaults_spec_witness :
    (fill_defaults ⟨gostr "serving", [], [], [], []⟩).Version = gostr "latest" ∧
    (fill_defaults ⟨gostr "serving", [], [], [], []⟩).IstioNamespace = DefaultIstioNamespace ∧
    (fill_defaults ⟨gostr "serving", [], [], [], []⟩).Namespace = DefaultKnativeServingNamespace := by
  obtain ⟨-, -, h3, -, h5, -, -, h8, -, -, -⟩ :=
    C6_fill_defaults_spec ⟨gostr "serving", [], [], [], []⟩
  exact ⟨h3 rfl, h5 rfl (by decide), h8 rfl (by decide)⟩

theorem occursIn_mem {pat s : Str} {c : Char} (h : occursIn pat s) (hc : c ∈ pat) : c ∈ s := by
  obtain ⟨a, b, hs⟩ := h
  subst hs
  simp [List.mem_append, hc]

/-- Claim C4: for a serving component, a non-default istio namespace
selects the mesh-namespace-aware overlay file and the values text contains
the computed local_gateway_value line; the default istio namespace selects
the plain serving overlay and (for namespace and version flags without an
underscore, as in every real namespace or version) no local_gateway_value
text occurs in the values document. -/
theorem C4_serving_overlay_gateway (flags : installCmdFlags) (rootPath : Str)
    (hserv : goEqualFold flags.Component ServingComponent = true) :
    (flags.IstioNamespace ≠ DefaultIstioNamespace →
      getOverlayYamlPath flags rootPath = rootPath ++ gostr "/overlay/ks_istio_ns.yaml" ∧
      occursIn (gostr "local_gateway_value: knative-local-gateway." ++ flags.IstioNamespace ++
        gostr ".svc.cluster.local") (getYamlValuesContent flags)) ∧
    (flags.IstioNamespace = DefaultIstioNamespace →
      getOverlayYamlPath flags rootPath = rootPath ++ gostr "/overlay/ks.yaml" ∧
      ('_' ∉ flags.Namespace → '_' ∉ flags.Version →
        ¬ occursIn (gostr "local_gateway_value") (getYamlValuesContent flags))) := by
  constructor
  · intro hns
    constructor
    · unfold getOverlayYamlPath
      rw [if_pos hserv, if_pos hns]
    · unfold getYamlValuesContent
      rw [if_pos hserv, if_pos hns]
      refine ⟨gostr "#@data/values\n---\nname: " ++ DefaultKnativeServingNamespace ++
        gostr "\nnamespace: " ++ flags.Namespace ++ gostr "\nversion: '" ++ flags.Version ++
        gostr "'" ++ gostr "\n", [], ?_⟩
      simp [List.append_assoc]
  · intro hns
    constructor
    · unfold getOverlayYamlPath
      rw [if_pos hserv, if_neg (fun hcon => hcon hns)]
    · intro hN hV hocc
      have hmem := occursIn_mem hocc (show '_' ∈ gostr "local_gateway_value" by decide)
      unfold getYamlValuesContent at hmem
      rw [if_pos hserv, if_neg (fun hcon => hcon hns)] at hmem
      simp only [List.mem_append] at hmem
      rcases hmem with ((((((h | h) | h) | h) | h) | h) | h)
      · exact absurd h (by decide)
      · exact absurd h (by decide)
      · exact absurd h (by decide)
      · exact hN h
      · exact absurd h (by decide)
      · exact hV h
      · exact absurd h (by decide)

/-- Witness for C4 at serving flags with istio namespace "mesh-ns". -/
theorem C4_serving_overlay_gateway_witness :
    getOverlayYamlPath ⟨gostr "serving", gostr "mesh-ns", gostr "my-ns", [], gostr "v1.9.0"⟩
        (gostr "/root") = gostr "/root" ++ gostr "/overlay/ks_istio_ns.yaml" ∧
    occursIn (gostr "local_gateway_value: knative-local-gateway." ++ gostr "mesh-ns" ++
        gostr ".svc.cluster.local")
      (getYamlValuesContent ⟨gostr "serving", gostr "mesh-ns", gostr "my-ns", [], gostr "v1.9.0"⟩) :=
  (C4_serving_overlay_gateway ⟨gostr "serving", gostr "mesh-ns", gostr "my-ns", [], gostr "v1.9.0"⟩
    (gostr "/root") (by decide)).1 (by decide)

/-- Claim C9: the ensure-namespace step is idempotent; with no unexpected
existence-check error it succeeds both times, creates the namespace only
when absent, leaves the state unchanged the second time, and an unexpected
error is surfaced unchanged. -/
theorem C9_ensure_namespace_idempotent (cl : Cluster) (name : Str) :
    (cl.getErr name = none →
      (ensureNamespaceStep cl name).2 = Except.ok () ∧
      (ensureNamespaceStep (ensureNamespaceStep cl name).1 name).2 = Except.ok () ∧
      (ensureNamespaceStep (ensureNamespaceStep cl name).1 name).1 =
        (ensureNamespaceStep cl name).1 ∧
      (name ∉ cl.existing → (ensureNamespaceStep cl name).1.existing = name :: cl.existing) ∧
      (name ∈ cl.existing → (ensureNamespaceStep cl name).1 = cl)) ∧
    (∀ e, cl.getErr name = some e → ensureNamespaceStep cl name = (cl, Except.error e)) := by
  constructor
  · intro hge
    by_cases hmem : name ∈ cl.existing
    · simp [ensureNamespaceStep, hge, hmem]
    · simp [ensureNamespaceStep, hge, hmem]
  · intro e he
    simp [ensureNamespaceStep, he]

/-- Witness for C9 on an empty cluster and the serving namespace. -/
theorem C9_ensure_namespace_idempotent_witness :
    (ensureNamespaceStep ⟨[], fun _ => none⟩ (gostr "knative-serving")).2 = Except.ok () ∧
    (ensureNamespaceStep (ensureNamespaceStep ⟨[], fun _ => none⟩ (gostr "knative-serving")).1
      (gostr "knative-serving")).2 = Except.ok () ∧
    (ensureNamespaceStep (ensureNamespaceStep ⟨[], fun _ => none⟩ (gostr "knative-serving")).1
      (gostr "knative-serving")).1 =
      (ensureNamespaceStep ⟨[], fun _ => none⟩ (gostr "knative-serving")).1 ∧
    (ensureNamespaceStep ⟨[], fun _ => none⟩ (gostr "knative-serving")).1.existing =
      gostr "knative-serving" :: ([] : List Str) := by
  obtain ⟨h1, h2, h3, h4, -⟩ :=
    (C9_ensure_namespace_idempotent ⟨[], fun _ => none⟩ (gostr "knative-serving")).1 rfl
  exact ⟨h1, h2, h3, h4 (by simp)⟩

/-- Claim C10: when reading the selected overlay file fails, the overlay
content is the empty string and the apply step still runs, receiving empty
overlay content; the read failure is not reported (the function has no
error channel at all). -/
theorem C10_overlay_read_error_ignored (env : EnvA) (flags : installCmdFlags)
    (rootPath e : Str)
    (h : env.readFile (getOverlayYamlPath flags rootPath) = Except.error e) :
    getOverlayYamlContent env flags rootPath = [] ∧
    (∀ tpl, (applyOverlayValuesOnTemplate env tpl flags rootPath).2 =
      env.applyManifests tpl [] (getYamlValuesContent flags)) := by
  have hc : getOverlayYamlContent env flags rootPath = [] := by
    unfold getOverlayYamlContent
    by_cases hp : getOverlayYamlPath flags rootPath = []
    · rw [if_pos hp]
    · rw [if_neg hp, h]
  refine ⟨hc, fun tpl => ?_⟩
  show env.applyManifests tpl (getOverlayYamlContent env flags rootPath)
    (getYamlValuesContent flags) = _
  rw [hc]

/-- Witness for C10: a serving install whose overlay file read fails
produces empty overlay content and still applies. -/
theorem C10_overlay_read_error_ignored_witness :
    getOverlayYamlContent
      ⟨true, Except.ok [], Except.ok true, fun _ => Except.ok [],
        fun _ => Except.error (gostr "no such file"), fun _ => Except.ok (),
        fun _ _ => Except.ok [], fun _ _ _ => Except.ok ()⟩
      ⟨gostr "serving", gostr "istio-system", gostr "knative-serving", [], gostr "v1.9.0"⟩
      (gostr "/root") = [] :=
  (C10_overlay_read_error_ignored
    ⟨true, Except.ok [], Except.ok true, fun _ => Except.ok [],
      fun _ => Except.error (gostr "no such file"), fun _ => Except.ok (),
      fun _ _ => Except.ok [], fun _ _ _ => Except.ok ()⟩
    ⟨gostr "serving", gostr "istio-system", gostr "knative-serving", [], gostr "v1.9.0"⟩
    (gostr "/root") (gostr "no such file") rfl).1

theorem nsBeforeApply_nil : nsBeforeApply [] := by
  intro ns i h
  simp at h

theorem nsBeforeApply_no_apply {t : List Ev} (h : ∀ ns, Ev.applyEv ns ∉ t) :
    nsBeforeApply t := by
  intro ns i hi
  have hmem : Ev.applyEv ns ∈ t := by
    rw [List.mem_iff_getElem?]
    exact ⟨i, hi⟩
  exact absurd hmem (h ns)

theorem nsBeforeApply_append {t1 t2 : List Ev} (h1 : nsBeforeApply t1)
    (h2 : nsBeforeApply t2) : nsBeforeApply (t1 ++ t2) := by
  intro ns i hi
  by_cases hl : i < t1.length
  · rw [List.getElem?_append_left hl] at hi
    obtain ⟨j, hj, hjv⟩ := h1 ns i hi
    refine ⟨j, hj, ?_⟩
    rw [List.getElem?_append_left (lt_trans hj hl)]
    exact hjv
  · push_neg at hl
    rw [List.getElem?_append_right hl] at hi
    obtain ⟨j, hj, hjv⟩ := h2 ns (i - t1.length) hi
    refine ⟨t1.length + j, by omega, ?_⟩
    rw [List.getElem?_append_right (by omega)]
    rw [show t1.length + j - t1.length = j from by omega]
    exact hjv

theorem nsBeforeApply_append_mem {t1 t2 : List Ev} (h1 : nsBeforeApply t1)
    (h2 : ∀ ns, Ev.applyEv ns ∈ t2 → Ev.nsEnsure ns ∈ t1) : nsBeforeApply (t1 ++ t2) := by
  intro ns i hi
  by_cases hl : i < t1.length
  · rw [List.getElem?_append_left hl] at hi
    obtain ⟨j, hj, hjv⟩ := h1 ns i hi
    refine ⟨j, hj, ?_⟩
    rw [List.getElem?_append_left (lt_trans hj hl)]
    exact hjv
  · push_neg at hl
    rw [List.getElem?_append_right hl] at hi
    have hmem : Ev.applyEv ns ∈ t2 := by
      rw [List.mem_iff_getElem?]
      exact ⟨_, hi⟩
    have hns := h2 ns hmem
    rw [List.mem_iff_getElem?] at hns
    obtain ⟨j, hj⟩ := hns
    have hjlen : j < t1.length := by
      rw [List.getElem?_eq_some_iff] at hj
      exact hj.1
    refine ⟨j, by omega, ?_⟩
    rw [List.getElem?_append_left hjlen]
    exact hj

theorem installOperator_nsBeforeApply (env : EnvA) (flags : installCmdFlags) (rootPath : Str) :
    nsBeforeApply (installOperator env flags rootPath).1 := by
  unfold installOperator createNamspaceIfNecessary
  by_cases hcl : env.newKubeClientOk
  · rw [if_pos hcl]
    rcases hns : env.createNS flags.Namespace with e | u <;> simp only [hns]
    · exact nsBeforeApply_no_apply (by intro ns hmem; simp at hmem)
    · rcases hurl : getOperatorURL flags.Version with e | url <;> simp only [hurl]
      · exact nsBeforeApply_no_apply (by intro ns hmem; simp at hmem)
      · rcases hdl : env.download url with e | tpl <;> simp only [hdl]
        · exact nsBeforeApply_no_apply (by intro ns hmem; simp at hmem)
        · apply nsBeforeApply_append_mem
          · exact nsBeforeApply_no_apply (by intro ns hmem; simp at hmem)
          · intro ns hmem
            simp only [applyOverlayValuesOnTemplate, List.mem_singleton] at hmem
            rw [show ns = flags.Namespace from by injection hmem]
            simp
  · rw [if_neg hcl]
    exact nsBeforeApply_nil

theorem installKnativeComponent_nsBeforeApply (env : EnvA) (flags : installCmdFlags)
    (rootPath : Str) : nsBeforeApply (installKnativeComponent env flags rootPath).1 := by
  unfold installKnativeComponent
  by_cases hcl : env.newKubeClientOk
  · rw [if_neg (by simp [hcl])]
    rcases hchk : env.checkOperatorInstalled with e | b <;> simp only [hchk]
    · exact nsBeforeApply_nil
    · have hnest : nsBeforeApply
          (if b then (([] : List Ev), Except.ok ())
           else installOperator env ⟨[], [], gostr "default", [], gostr "latest"⟩ rootPath).1 := by
        by_cases hb : b
        · rw [if_pos hb]
          exact nsBeforeApply_nil
        · rw [if_neg hb]
          exact installOperator_nsBeforeApply env _ rootPath
      unfold createNamspaceIfNecessary
      rw [if_pos hcl]
      rcases hns : env.createNS flags.Namespace with e | u <;> simp only [hns]
      · exact nsBeforeApply_append hnest
          (nsBeforeApply_no_apply (by intro ns hmem; simp at hmem))
      · rcases hcr : GenerateOperatorCRString env flags.Component flags.Namespace with e | tpl <;>
          simp only [hcr]
        · exact nsBeforeApply_append hnest
            (nsBeforeApply_no_apply (by intro ns hmem; simp at hmem))
        · rw [List.append_assoc]
          apply nsBeforeApply_append hnest
          apply nsBeforeApply_append_mem
          · exact nsBeforeApply_no_apply (by intro ns hmem; simp at hmem)
          · intro ns hmem
            simp only [applyOverlayValuesOnTemplate, List.mem_singleton] at hmem
            rw [show ns = flags.Namespace from by injection hmem]
            simp
  · rw [if_pos (by simp [Bool.eq_false_iff, hcl])]
    exact nsBeforeApply_nil

/-- Claim C7: in every execution path of the install command, any manifest
application in the trace is preceded by an ensure-namespace attempt for the
same target namespace; a manifest is never applied before namespace
creation has been attempted. -/
theorem C7_ns_ensure_before_apply (env : EnvA) (flags0 : installCmdFlags) (ns : Str) (i : Nat)
    (h : (runInstall env flags0).1[i]? = some (Ev.applyEv ns)) :
    ∃ j, j < i ∧ (runInstall env flags0).1[j]? = some (Ev.nsEnsure ns) := by
  have hall : nsBeforeApply (runInstall env flags0).1 := by
    unfold runInstall
    rcases hwd : env.getwd with e | rootPath <;> simp only [hwd]
    · exact nsBeforeApply_nil
    · by_cases hcc : (fill_defaults flags0).Component ≠ []
      · rw [if_pos hcc]
        exact installKnativeComponent_nsBeforeApply env _ rootPath
      · rw [if_neg hcc]
        exact installOperator_nsBeforeApply env _ rootPath
  exact hall ns i h

/-- Witness for C7: the operator path with no flags applies at position 2
of the trace, preceded by the ensure of namespace "default". -/
theorem C7_ns_ensure_before_apply_witness :
    ∃ j, j < 2 ∧ (runInstall envAllOk ⟨[], [], [], [], []⟩).1[j]? =
      some (Ev.nsEnsure (gostr "default")) :=
  C7_ns_ensure_before_apply envAllOk ⟨[], [], [], [], []⟩ (gostr "default") 2 (by decide)

/-- Claim C5: a non-empty component name that folds to neither "serving"
nor "eventing" makes the install command fail with the InvalidComponent
error of the CR generator instead of proceeding: no manifest is applied. -/
theorem C5_invalid_component_rejected (env : EnvA) (flags0 : installCmdFlags) (r : Str)
    (hcomp : flags0.Component ≠ [])
    (hs : ¬ goEqualFold flags0.Component ServingComponent = true)
    (he : ¬ goEqualFold flags0.Component EventingComponent = true)
    (hcl : env.newKubeClientOk = true)
    (hwd : env.getwd = Except.ok r)
    (hop : env.checkOperatorInstalled = Except.ok true)
    (hns : env.createNS (fill_defaults flags0).Namespace = Except.ok ()) :
    (runInstall env flags0).2 =
      Except.error (gostr "unknown component name: " ++ flags0.Component) ∧
    (∀ ns, Ev.applyEv ns ∉ (runInstall env flags0).1) := by
  have hcmp : (fill_defaults flags0).Component = flags0.Component := by
    rw [fill_defaults_eq]
  unfold runInstall
  simp only [hwd]
  rw [if_pos (by rw [hcmp]; exact hcomp)]
  unfold installKnativeComponent
  rw [if_neg (by simp [hcl])]
  simp only [hop]
  simp only [if_true]
  unfold createNamspaceIfNecessary
  rw [if_pos hcl]
  simp only [hns]
  unfold GenerateOperatorCRString
  rw [hcmp, if_neg (fun hor => hor.elim hs he)]
  constructor
  · rfl
  · intro ns hmem
    simp at hmem

/-- Witness for C5: component "bogus" under a fully working environment is
rejected with the InvalidComponent error and nothing is applied. -/
theorem C5_invalid_component_rejected_witness :
    (runInstall envAllOk ⟨gostr "bogus", [], [], [], []⟩).2 =
      Except.error (gostr "unknown component name: " ++ gostr "bogus") ∧
    (∀ ns, Ev.applyEv ns ∉ (runInstall envAllOk ⟨gostr "bogus", [], [], [], []⟩).1) :=
  C5_invalid_component_rejected envAllOk ⟨gostr "bogus", [], [], [], []⟩ []
    (by decide) (by decide) (by decide) rfl rfl rfl rfl

/-- Claim C2 (evaluation of the code at the failing input): when the
operator is missing and the nested operator install fails at the download,
`installKnativeComponent` still returns success — the nested error is
dropped rather than propagated. -/
theorem C2_nested_install_error_swallowed :
    (installOperator envSwallow ⟨[], [], gostr "default", [], gostr "latest"⟩ (gostr "/root")).2 =
      Except.error (gostr "connection refused") ∧
    (installKnativeComponent envSwallow flagsSwallow (gostr "/root")).2 = Except.ok () := by
  constructor
  · rfl
  · rfl

/-- Claim C8 (evaluation of the code at the failing input): when writing
the rendered file fails, the earlier RunE returns with the scratch
directory created and never removed. -/
theorem C8_tempdir_left_on_write_failure :
    runInstallLegacy envWriteFail flagsLegacyDefault =
      ([Ev.downloadEv latestURL, Ev.mkdirTempEv (gostr "/tmp/temp-1234")],
        Except.error (gostr "disk full")) ∧
    Ev.mkdirTempEv (gostr "/tmp/temp-1234") ∈ (runInstallLegacy envWriteFail flagsLegacyDefault).1 ∧
    Ev.removeTempEv (gostr "/tmp/temp-1234") ∉
      (runInstallLegacy envWriteFail flagsLegacyDefault).1 := by
  refine ⟨by decide, by decide, by decide⟩
